import Mathlib

/-!
Verification of the MOBIHunter batch-conversion driver (src/main.py).

The Python program is a Tk GUI around a file queue and a sequential
batch-conversion driver that shells out to Calibre's ebook-convert.
This file gives a shallow embedding of the queue/driver logic:

* strings are Lean `String`s; Python `str.lower`, `str.strip`, slicing and
  f-string interpolation of integers are embedded as explicit functions on
  `List Char`;
* the filesystem around one destination directory is embedded as the list of
  file names present in that directory (`os.listdir` / `os.path.exists`);
* the conversion subprocess, the cancellation flag and the source-deletion
  helper are embedded as explicit environment records holding the values the
  Python code would observe at each of its observation points;
* `os.path.normcase/normpath/abspath` (canonical_path) is embedded as an
  arbitrary function `canon : String → String`, since its behaviour is
  OS-dependent and the queue logic only ever compares its outputs.
-/

namespace MOBIHunter

/-! ## Characters, decimal digits, and Python string helpers -/

/-- The decimal digit character for `n` (`0 ≤ n ≤ 9`), as produced by Python
f-string interpolation of an integer. -/
def digitChar (n : Nat) : Char := Char.ofNat (48 + n)

/-- Numeric value of a decimal digit character. -/
def charVal (c : Char) : Nat := c.toNat - 48

/-- Value of a string of decimal digit characters, most significant first
(the value the regex group `(\d+)` converts to via Python `int`). -/
def digitsVal (l : List Char) : Nat := List.foldl (fun a c => a * 10 + charVal c) 0 l

/-- Fuel-driven decimal representation of a natural number, most significant
digit first; `digitsRepr` below always supplies enough fuel. -/
def digitsReprAux : Nat → Nat → List Char
  | 0, _ => []
  | fuel + 1, n =>
    if n < 10 then [digitChar n]
    else digitsReprAux fuel (n / 10) ++ [digitChar (n % 10)]

/-- Decimal representation of a natural number, as Python `str`/f-string
interpolation produces it. -/
def digitsRepr (n : Nat) : List Char := digitsReprAux (n + 1) n

/-- Decimal representation as a `String`. -/
def natStr (n : Nat) : String := ⟨digitsRepr n⟩

/-- Python `str.lower()` restricted to ASCII case folding. -/
def pyLower (s : String) : String := ⟨s.data.map Char.toLower⟩

/-- Python `str.strip()`: drop whitespace from both ends. -/
def pyStrip (s : String) : String :=
  ⟨((s.data.dropWhile Char.isWhitespace).reverse.dropWhile Char.isWhitespace).reverse⟩

/-- Python `a or b` for strings: `a` if non-empty, else `b`. -/
def pyOrStr (a b : String) : String := if a = "" then b else a

/-- Predicate `listStarts p l` holds when `p` is an initial segment of `l`. -/
def listStarts : List Char → List Char → Bool
  | [], _ => true
  | _ :: _, [] => false
  | a :: as, b :: bs => a = b && listStarts as bs

/-- Python `needle in hay` for strings (substring containment). -/
def listHasSub (needle : List Char) : List Char → Bool
  | [] => listStarts needle []
  | c :: cs => listStarts needle (c :: cs) || listHasSub needle cs

lemma data_append (a b : String) : (a ++ b).data = a.data ++ b.data := rfl

/-- Facts about single decimal digits, checked by evaluation. -/
lemma digit_facts : ∀ n, n < 10 →
    charVal (digitChar n) = n ∧ (digitChar n).isDigit = true ∧
    Char.toLower (digitChar n) = digitChar n := by decide

lemma digitsVal_append (l : List Char) (c : Char) :
    digitsVal (l ++ [c]) = digitsVal l * 10 + charVal c := by
  simp [digitsVal, List.foldl_append]

lemma digitsReprAux_spec : ∀ fuel n, 0 < fuel → n < 10 ^ fuel →
    digitsVal (digitsReprAux fuel n) = n ∧
    (digitsReprAux fuel n).all Char.isDigit = true ∧
    digitsReprAux fuel n ≠ [] ∧
    (digitsReprAux fuel n).map Char.toLower = digitsReprAux fuel n := by
  intro fuel
  induction fuel with
  | zero => intro n h; omega
  | succ f ih =>
    intro n _ hlt
    by_cases h10 : n < 10
    · obtain ⟨h1, h2, h3⟩ := digit_facts n h10
      refine ⟨?_, ?_, ?_, ?_⟩ <;> simp [digitsReprAux, h10, digitsVal, h1, h2, h3]
    · have hf : 0 < f := by
        rcases Nat.eq_zero_or_pos f with hf0 | hf0
        · subst hf0; simp at hlt; omega
        · exact hf0
      have hdiv : n / 10 < 10 ^ f := by
        have : 10 ^ (f + 1) = 10 ^ f * 10 := by ring
        rw [this] at hlt
        exact Nat.div_lt_of_lt_mul (by omega)
      obtain ⟨ihv, ihall, ihne, ihlow⟩ := ih (n / 10) hf hdiv
      obtain ⟨h1, h2, h3⟩ := digit_facts (n % 10) (Nat.mod_lt _ (by omega))
      refine ⟨?_, ?_, ?_, ?_⟩
      · rw [digitsReprAux, if_neg h10, digitsVal_append, ihv, h1]
        omega
      · rw [digitsReprAux, if_neg h10]
        simp only [List.all_append, ihall, Bool.true_and, List.all_cons, List.all_nil, h2,
          Bool.and_true]
      · rw [digitsReprAux, if_neg h10]
        simp
      · rw [digitsReprAux, if_neg h10, List.map_append, ihlow]
        simp [h3]

lemma digitsRepr_spec (n : Nat) :
    digitsVal (digitsRepr n) = n ∧
    (digitsRepr n).all Char.isDigit = true ∧
    digitsRepr n ≠ [] ∧
    (digitsRepr n).map Char.toLower = digitsRepr n := by
  have hlt : n < 10 ^ (n + 1) := by
    calc n < 10 ^ n := Nat.lt_pow_self (by omega) n
    _ ≤ 10 ^ (n + 1) := Nat.pow_le_pow_right (by omega) (by omega)
  exact digitsReprAux_spec (n + 1) n (by omega) hlt

/-! ## Output path resolution (resolve_output_path / find_next_rename_index)

The destination directory is embedded as the list of file names it contains
(`entries`); `os.path.exists` on a path in that directory is membership of its
base name, and `os.listdir` returns `entries`.  The `os.path` juggling that
produces `base` from the source path and the optional output-directory
override is abstracted to the resulting file stem `stem`. -/

/-- Constant from `POLICIES`: `"Skip existing"`. -/
def POLICY_SKIP : String := "Skip existing"

/-- Constant from `POLICIES`: `"Overwrite existing"`. -/
def POLICY_OVERWRITE : String := "Overwrite existing"

/-- Constant from `POLICIES`: `"Rename new file"`. -/
def POLICY_RENAME : String := "Rename new file"

/-- Constant from `FAIL_POLICIES`: `"Keep failed queued"`. -/
def FAIL_POLICY_KEEP : String := "Keep failed queued"

/-- Constant from `FAIL_POLICIES`: `"Remove failed from queue"`. -/
def FAIL_POLICY_REMOVE : String := "Remove failed from queue"

/-- Constant `SPLIT_RETRY_FLAGS = ("--flow-size", "0", "--dont-split-on-page-breaks")`. -/
def SPLIT_RETRY_FLAGS : List String := ["--flow-size", "0", "--dont-split-on-page-breaks"]

/-- The f-string `f"{base} ({index}).epub"` used for renamed outputs. -/
def renameName (base_stem : String) (index : Nat) : String :=
  base_stem ++ " (" ++ natStr index ++ ").epub"

/-- The regex `^{stem} \((\d+)\)\.epub$` with `re.IGNORECASE` from
`find_next_rename_index`: on a match, returns the numeric value of the
parenthesised group; `\d` is embedded as the ASCII decimal digits. -/
def nameMatchIndex (stem name : List Char) : Option Nat :=
  let pre := stem.map Char.toLower ++ (" (" : String).data
  let suf := (").epub" : String).data
  let ln := name.map Char.toLower
  if ln.length ≤ pre.length + suf.length then none
  else
    let mid := (ln.drop pre.length).take (ln.length - pre.length - suf.length)
    if ln = pre ++ mid ++ suf ∧ mid.all Char.isDigit then some (digitsVal mid) else none

/-- One step of the `max_index` accumulation in `find_next_rename_index`. -/
def rename_index_step (stem : String) (max_index : Nat) (name : String) : Nat :=
  match nameMatchIndex stem.data name.data with
  | some n => max max_index n
  | none => max_index

/-- Function `find_next_rename_index`: scan the destination directory for names
matching `<stem> (<N>).epub` (case-insensitively), return `max N + 1`
(the `OSError` fallback of the Python code cannot occur in this embedding,
where the directory listing is given). -/
def find_next_rename_index (entries : List String) (base_stem : String) : Nat :=
  List.foldl (rename_index_step base_stem) 0 entries + 1

/-- The `while os.path.exists(candidate)` loop of `resolve_output_path`,
driven by fuel; `resolve_output_path` supplies fuel `entries.length + 1`,
which is enough because the candidate names for distinct indices are
distinct. -/
def rename_scan (entries : List String) (base_stem : String) : Nat → Nat → String
  | 0, index => renameName base_stem index
  | fuel + 1, index =>
    let candidate := renameName base_stem index
    if candidate ∈ entries then rename_scan entries base_stem fuel (index + 1)
    else candidate

/-- Function `resolve_output_path`: compute the output name for a source with stem
`stem` in a destination directory containing `entries`; returns the chosen
name and the skip signal. -/
def resolve_output_path (entries : List String) (stem policy : String) : String × Bool :=
  let target := stem ++ ".epub"
  if target ∉ entries then (target, false)
  else if policy = POLICY_SKIP then (target, true)
  else if policy = POLICY_OVERWRITE then (target, false)
  else
    let index := find_next_rename_index entries stem
    let candidate := renameName stem index
    if candidate ∉ entries then (candidate, false)
    else (rename_scan entries stem (entries.length + 1) (index + 1), false)

/-- Evaluation of `nameMatchIndex` on a string of the exact shape the regex describes. -/
lemma nameMatchIndex_concat (stem mid : List Char)
    (hmid : mid ≠ []) (hall : mid.all Char.isDigit = true)
    (hlow : mid.map Char.toLower = mid) :
    nameMatchIndex stem
      (stem ++ (" (" : String).data ++ mid ++ (").epub" : String).data) =
      some (digitsVal mid) := by
  have hdne : 0 < mid.length := List.length_pos.mpr hmid
  have hlowsp : (" (" : String).data.map Char.toLower = (" (" : String).data := by decide
  have hlowsuf : (").epub" : String).data.map Char.toLower = (").epub" : String).data := by
    decide
  have hln : (stem ++ (" (" : String).data ++ mid ++ (").epub" : String).data).map
      Char.toLower =
      (stem.map Char.toLower ++ (" (" : String).data) ++ (mid ++ (").epub" : String).data) := by
    simp only [List.map_append, hlowsp, hlowsuf, hlow, List.append_assoc]
  rw [nameMatchIndex]
  simp only [hln]
  rw [if_neg (by simp only [List.length_append]; omega)]
  have harith : ((stem.map Char.toLower ++ (" (" : String).data) ++
      (mid ++ (").epub" : String).data)).length -
      (stem.map Char.toLower ++ (" (" : String).data).length -
      ((").epub" : String).data).length = mid.length := by
    simp only [List.length_append]; omega
  rw [List.drop_left, harith, List.take_left]
  rw [if_pos ⟨by simp [List.append_assoc], hall⟩]

/-- Round trip: a name built by `renameName` matches the rename regex with
exactly its own index. -/
lemma nameMatchIndex_renameName (stem : String) (j : Nat) :
    nameMatchIndex stem.data (renameName stem j).data = some j := by
  obtain ⟨hval, hall, hne, hlow⟩ := digitsRepr_spec j
  have hdata : (renameName stem j).data =
      stem.data ++ (" (" : String).data ++ digitsRepr j ++ (").epub" : String).data := by
    simp [renameName, natStr, data_append, List.append_assoc]
  rw [hdata, nameMatchIndex_concat stem.data (digitsRepr j) hne hall hlow, hval]

/-- The `max_index` fold only grows. -/
lemma foldl_rename_index_step_le (stem : String) :
    ∀ (l : List String) (a : Nat), a ≤ List.foldl (rename_index_step stem) a l := by
  intro l
  induction l with
  | nil => intro a; simp
  | cons x xs ih =>
    intro a
    refine le_trans ?_ (ih (rename_index_step stem a x))
    unfold rename_index_step
    cases nameMatchIndex stem.data x.data with
    | none => simp
    | some n => simp [le_max_left]

/-- Every index matched in the directory is bounded by the fold result. -/
lemma foldl_rename_index_step_ge (stem : String) :
    ∀ (l : List String) (a : Nat) (name : String) (n : Nat), name ∈ l →
      nameMatchIndex stem.data name.data = some n →
      n ≤ List.foldl (rename_index_step stem) a l := by
  intro l
  induction l with
  | nil => intro a name n h; simp at h
  | cons x xs ih =>
    intro a name n hmem hmatch
    rcases List.mem_cons.mp hmem with heq | hmem2
    · subst heq
      refine le_trans ?_ (foldl_rename_index_step_le stem xs (rename_index_step stem a name))
      unfold rename_index_step
      rw [hmatch]
      exact le_max_right _ _
    · exact ih (rename_index_step stem a x) name n hmem2 hmatch

/-- C7: under the `Rename` existing-output policy, when the computed target
exists, the resolver scans the destination directory for names matching
`<stem> (<N>).epub` case-insensitively, takes the maximum `N` found
(`find_next_rename_index` returns `max + 1`, so every matched `N` is below
it), and returns `<stem> (<max+1>).epub`, which does not collide with any
existing directory entry (so the increment-further race loop is not
entered). -/
theorem claim_C7_rename_resolution (entries : List String) (stem : String)
    (hmem : (stem ++ ".epub") ∈ entries) :
    (∀ name ∈ entries, ∀ n, nameMatchIndex stem.data name.data = some n →
      n < find_next_rename_index entries stem) ∧
    renameName stem (find_next_rename_index entries stem) ∉ entries ∧
    resolve_output_path entries stem POLICY_RENAME =
      (renameName stem (find_next_rename_index entries stem), false) := by
  have hge : ∀ name ∈ entries, ∀ n, nameMatchIndex stem.data name.data = some n →
      n < find_next_rename_index entries stem := by
    intro name hmem2 n hmatch
    have := foldl_rename_index_step_ge stem entries 0 name n hmem2 hmatch
    unfold find_next_rename_index
    omega
  have hnotin : renameName stem (find_next_rename_index entries stem) ∉ entries := by
    intro hin
    have := hge _ hin _ (nameMatchIndex_renameName stem (find_next_rename_index entries stem))
    omega
  refine ⟨hge, hnotin, ?_⟩
  unfold resolve_output_path
  rw [if_neg (not_not_intro hmem), if_neg (by decide), if_neg (by decide), if_pos hnotin]

/-- C7 witness: with `book.epub` and `book (1).epub` present, resolving for
`book` under the `Rename` policy yields `book (2).epub`. -/
theorem claim_C7_witness :
    (("book" : String) ++ ".epub") ∈ (["book.epub", "book (1).epub"] : List String) ∧
    resolve_output_path ["book.epub", "book (1).epub"] "book" POLICY_RENAME =
      ("book (2).epub", false) := by
  have h := claim_C7_rename_resolution ["book.epub", "book (1).epub"] "book" (by decide)
  exact ⟨by decide, h.2.2.trans (by decide)⟩

/-! ## The conversion driver for one file (convert_file and helpers) -/

/-- The split-error markers of `is_split_error`. -/
def split_markers : List String :=
  ["could not find reasonable point at which to split",
   "calibre.ebooks.oeb.transforms.split.spliterror",
   "oeb/transforms/split.py"]

/-- Function `is_split_error`: lower-case the tool output and look for any of the
fixed markers as a substring. -/
def is_split_error (text : String) : Bool :=
  let lower_text := pyLower text
  split_markers.any (fun marker => listHasSub marker.data lower_text.data)

/-- Function `trim_tool_output` with its default `limit=1600`: truncate and append the
truncation marker. -/
def trim_tool_output (text : String) : String :=
  if text.data.length ≤ 1600 then text
  else ⟨text.data.take 1600⟩ ++ "\n...[output truncated]..."

/-- Result quadruple of `run_conversion_command` as observed by
`convert_file`: exit code, stdout, stderr, and the fatal-error message that
is non-`none` on spawn failure (`FileNotFoundError`), timeout
(`TimeoutExpired`) and unexpected exceptions. -/
structure RunOutcome where
  returnCode : Int
  stdout : String
  stderr : String
  fatal : Option String
deriving DecidableEq

/-- Environment of one `convert_file` call: the outcome of the first
`run_conversion_command` invocation, the value of `self.cancel_requested`
where `convert_file` reads it after the first attempt, the same pair for the
retry attempt, and the results of the (at most one per attempt)
`delete_source_if_enabled` call: `(True, "")` when deletion is disabled or
succeeded, `(False, msg)` when it failed. -/
structure ConvertEnv where
  run1 : RunOutcome
  cancel1 : Bool
  run2 : RunOutcome
  cancel2 : Bool
  del1 : Bool × String
  del2 : Bool × String
deriving DecidableEq

/-- Return value of `convert_file` — the `(status, detail, output_path)`
triple — instrumented with the list of subprocess command lines passed to
`run_conversion_command`, in order. -/
structure ConvertResult where
  status : String
  detail : String
  output : String
  commands : List (List String)
deriving DecidableEq

/-- Function `convert_file`: classify one conversion request, retrying once on a
split-error signature.  Mirrors the source's control flow: skip check, first
run, fatal error, exit 0 (with source deletion), cancellation flag, split
signature on `(stderr or stdout or "").strip()`, retry with
`SPLIT_RETRY_FLAGS`, and failure details built from the trimmed tool
output. -/
def convert_file (entries : List String) (stem policy converter_cmd mobi_file : String)
    (env : ConvertEnv) : ConvertResult :=
  let rp := resolve_output_path entries stem policy
  let output_path := rp.1
  if rp.2 then ⟨"skipped", "Output already exists.", output_path, []⟩
  else
    let command := [converter_cmd, mobi_file, output_path]
    match env.run1.fatal with
    | some msg => ⟨"failed", msg, output_path, [command]⟩
    | none =>
      if env.run1.returnCode = 0 then
        if env.del1.1 = false then ⟨"failed", env.del1.2, output_path, [command]⟩
        else ⟨"success", "", output_path, [command]⟩
      else if env.cancel1 then ⟨"cancelled", "Cancelled by user.", output_path, [command]⟩
      else
        let raw_tool_output := pyStrip (pyOrStr env.run1.stderr env.run1.stdout)
        if is_split_error raw_tool_output then
          let retry_command := command ++ SPLIT_RETRY_FLAGS
          match env.run2.fatal with
          | some msg => ⟨"failed", msg, output_path, [command, retry_command]⟩
          | none =>
            if env.run2.returnCode = 0 then
              if env.del2.1 = false then
                ⟨"failed", env.del2.2, output_path, [command, retry_command]⟩
              else ⟨"success", "", output_path, [command, retry_command]⟩
            else if env.cancel2 then
              ⟨"cancelled", "Cancelled by user.", output_path, [command, retry_command]⟩
            else
              let retry_output := trim_tool_output
                (pyStrip (pyOrStr env.run2.stderr env.run2.stdout))
              ⟨"failed",
                pyOrStr retry_output ("Retry exited with code " ++ toString env.run2.returnCode),
                output_path, [command, retry_command]⟩
        else
          let tool_output := trim_tool_output raw_tool_output
          ⟨"failed",
            pyOrStr tool_output ("Process exited with code " ++ toString env.run1.returnCode),
            output_path, [command]⟩

/-- C8: under the `Skip` policy with an already existing target,
`resolve_output_path` returns the existing target with the skip signal, the
outcome is `skipped`, and no conversion subprocess is invoked. -/
theorem claim_C8_skip_no_subprocess (entries : List String) (stem conv mobi : String)
    (env : ConvertEnv) (hmem : (stem ++ ".epub") ∈ entries) :
    resolve_output_path entries stem POLICY_SKIP = (stem ++ ".epub", true) ∧
    (convert_file entries stem POLICY_SKIP conv mobi env).status = "skipped" ∧
    (convert_file entries stem POLICY_SKIP conv mobi env).commands = [] := by
  have hres : resolve_output_path entries stem POLICY_SKIP = (stem ++ ".epub", true) := by
    unfold resolve_output_path
    rw [if_neg (not_not_intro hmem), if_pos rfl]
  refine ⟨hres, ?_, ?_⟩ <;> simp [convert_file, hres]

/-- Shared no-op conversion environment for witnesses. -/
def quiet_env : ConvertEnv :=
  ⟨⟨0, "", "", none⟩, false, ⟨0, "", "", none⟩, false, (true, ""), (true, "")⟩

/-- C8 witness: concrete skip of an existing `b.epub`. -/
theorem claim_C8_witness :
    resolve_output_path ["b.epub"] "b" POLICY_SKIP = (("b" : String) ++ ".epub", true) ∧
    (convert_file ["b.epub"] "b" POLICY_SKIP "ebook-convert" "b.mobi" quiet_env).status =
      "skipped" ∧
    (convert_file ["b.epub"] "b" POLICY_SKIP "ebook-convert" "b.mobi" quiet_env).commands =
      [] :=
  claim_C8_skip_no_subprocess ["b.epub"] "b" "ebook-convert" "b.mobi" quiet_env (by decide)

/-- First-attempt environment refuting C1: the subprocess exits non-zero,
standard error is non-empty without any split marker, and the split marker
appears only on standard output. -/
def c1_env : ConvertEnv :=
  ⟨⟨1, "could not find reasonable point at which to split",
    "conversion error: something else", none⟩,
   false, ⟨1, "", "", none⟩, false, (true, ""), (true, "")⟩

/-- C1 counterexample: the subprocess exits non-zero and the *combined*
standard-error/standard-output text contains the split marker, yet the driver
runs only one command (no retry) and finalizes `failed`, because the code
inspects `stderr or stdout` — standard error alone when it is non-empty —
rather than the combined text. -/
theorem claim_C1_counterexample :
    c1_env.run1.returnCode ≠ 0 ∧
    listHasSub ("could not find reasonable point at which to split" : String).data
      (c1_env.run1.stderr ++ c1_env.run1.stdout).data = true ∧
    (convert_file [] "b" POLICY_OVERWRITE "ebook-convert" "b.mobi" c1_env).commands =
      [["ebook-convert", "b.mobi", "b.epub"]] ∧
    (convert_file [] "b" POLICY_OVERWRITE "ebook-convert" "b.mobi" c1_env).status =
      "failed" := by
  decide

/-- C1 (amended): for a request that is not skipped, whose first subprocess
run exits non-zero with no fatal execution error and no cancellation
requested, and whose standard-error text — or standard-output text when
standard error is empty — contains a split marker after stripping, the driver
retries exactly once, with exactly the split-disabling flags appended; if the
retry also exits non-zero (no fatal error, no cancellation), the outcome is
`failed` and no further command is run. -/
theorem claim_C1_retry_once (entries : List String) (stem policy conv mobi : String)
    (env : ConvertEnv)
    (hskip : (resolve_output_path entries stem policy).2 = false)
    (hfatal : env.run1.fatal = none)
    (hcode : env.run1.returnCode ≠ 0)
    (hcancel : env.cancel1 = false)
    (hsplit : is_split_error (pyStrip (pyOrStr env.run1.stderr env.run1.stdout)) = true) :
    (convert_file entries stem policy conv mobi env).commands =
      [[conv, mobi, (resolve_output_path entries stem policy).1],
       [conv, mobi, (resolve_output_path entries stem policy).1] ++ SPLIT_RETRY_FLAGS] ∧
    (env.run2.fatal = none → env.run2.returnCode ≠ 0 → env.cancel2 = false →
      (convert_file entries stem policy conv mobi env).status = "failed") := by
  constructor
  · simp only [convert_file, hskip, Bool.false_eq_true, if_false, hfatal, if_neg hcode,
      hcancel, hsplit, if_true]
    cases env.run2.fatal with
    | some msg => rfl
    | none =>
      by_cases h0 : env.run2.returnCode = 0
      · by_cases hd : env.del2.1 = false <;> simp [h0, hd]
      · by_cases hcc : env.cancel2 <;> simp [h0, hcc]
  · intro h2f h2c h2cancel
    simp [convert_file, hskip, hfatal, if_neg hcode, hcancel, hsplit, h2f, if_neg h2c,
      h2cancel]

/-- Environment for the C1 witness: split marker on standard error, retry
fails with a plain error. -/
def c1_wenv : ConvertEnv :=
  ⟨⟨1, "", "could not find reasonable point at which to split", none⟩, false,
   ⟨1, "", "retry also failed", none⟩, false, (true, ""), (true, "")⟩

/-- C1 witness: a concrete request hitting the split signature is retried
exactly once with the split-disabling flags, and the failing retry finalizes
`failed`. -/
theorem claim_C1_witness :
    (convert_file [] "b" POLICY_OVERWRITE "ebook-convert" "b.mobi" c1_wenv).commands =
      [["ebook-convert", "b.mobi", "b.epub"],
       ["ebook-convert", "b.mobi", "b.epub"] ++ SPLIT_RETRY_FLAGS] ∧
    (convert_file [] "b" POLICY_OVERWRITE "ebook-convert" "b.mobi" c1_wenv).status =
      "failed" := by
  have h := claim_C1_retry_once [] "b" POLICY_OVERWRITE "ebook-convert" "b.mobi" c1_wenv
    (by decide) rfl (by decide) rfl (by decide)
  exact ⟨h.1.trans (by decide), h.2 rfl (by decide) rfl⟩

/-- Environment refuting C2: cancellation was requested while the subprocess
ran, but the subprocess still exited 0. -/
def c2_env : ConvertEnv :=
  ⟨⟨0, "", "", none⟩, true, ⟨0, "", "", none⟩, false, (true, ""), (true, "")⟩

/-- C2 counterexample: with cancellation requested while the subprocess was
running and the subprocess exiting 0, the outcome is `success`, not
`cancelled` — the exit-code-0 check precedes the cancellation check. -/
theorem claim_C2_counterexample :
    c2_env.cancel1 = true ∧
    (convert_file [] "b" POLICY_OVERWRITE "ebook-convert" "b.mobi" c2_env).status =
      "success" ∧
    (convert_file [] "b" POLICY_OVERWRITE "ebook-convert" "b.mobi" c2_env).status ≠
      "cancelled" := by
  decide

/-- C2 (amended): for a request that is not skipped, if a subprocess attempt
completes with a non-zero exit code and no fatal execution error (no timeout,
spawn failure or unexpected exception) while cancellation has been requested,
the outcome is `cancelled` rather than `failed` — on the first attempt and
likewise on the split-error retry. -/
theorem claim_C2_cancel_classification (entries : List String)
    (stem policy conv mobi : String) (env : ConvertEnv)
    (hskip : (resolve_output_path entries stem policy).2 = false) :
    (env.run1.fatal = none → env.run1.returnCode ≠ 0 → env.cancel1 = true →
      (convert_file entries stem policy conv mobi env).status = "cancelled") ∧
    (env.run1.fatal = none → env.run1.returnCode ≠ 0 → env.cancel1 = false →
      is_split_error (pyStrip (pyOrStr env.run1.stderr env.run1.stdout)) = true →
      env.run2.fatal = none → env.run2.returnCode ≠ 0 → env.cancel2 = true →
      (convert_file entries stem policy conv mobi env).status = "cancelled") := by
  constructor
  · intro hfatal hcode hcancel
    simp [convert_file, hskip, hfatal, if_neg hcode, hcancel]
  · intro hfatal hcode hcancel hsplit h2f h2c h2cancel
    simp [convert_file, hskip, hfatal, if_neg hcode, hcancel, hsplit, h2f, if_neg h2c,
      h2cancel]

/-- Environment for the first half of the C2 witness: plain failure with
cancellation requested. -/
def c2_wenv1 : ConvertEnv :=
  ⟨⟨1, "", "boom", none⟩, true, ⟨0, "", "", none⟩, false, (true, ""), (true, "")⟩

/-- Environment for the second half of the C2 witness: split-error retry
fails while cancellation is requested. -/
def c2_wenv2 : ConvertEnv :=
  ⟨⟨1, "", "could not find reasonable point at which to split", none⟩, false,
   ⟨1, "", "", none⟩, true, (true, ""), (true, "")⟩

/-- C2 witness: concrete cancelled classifications on the first attempt and
on the retry attempt. -/
theorem claim_C2_witness :
    (convert_file [] "b" POLICY_OVERWRITE "ebook-convert" "b.mobi" c2_wenv1).status =
      "cancelled" ∧
    (convert_file [] "b" POLICY_OVERWRITE "ebook-convert" "b.mobi" c2_wenv2).status =
      "cancelled" :=
  ⟨(claim_C2_cancel_classification [] "b" POLICY_OVERWRITE "ebook-convert" "b.mobi" c2_wenv1
      (by decide)).1 rfl (by decide) rfl,
   (claim_C2_cancel_classification [] "b" POLICY_OVERWRITE "ebook-convert" "b.mobi" c2_wenv2
      (by decide)).2 rfl (by decide) rfl (by decide) rfl (by decide) rfl⟩

/-! ## The batch loop (convert_all)

`convert_all` iterates over the snapshot taken at batch start.  The
time-varying `self.cancel_requested` flag is embedded as `cb : Nat → Bool`,
giving the value the loop reads at the top of iteration `index` (1-based),
and the per-iteration `convert_file` result as `res : Nat → status × detail ×
output_path`. -/

/-- The single terminal `("finished", ...)` event of `convert_all`. -/
structure Finished where
  successes : List (String × String)
  skipped : List String
  failures : List (String × String)
  total : Nat
  processed : Nat
  cancelled : Bool
deriving DecidableEq

/-- Loop body of `convert_all`, carrying the accumulators. -/
def convert_all_go (cb : Nat → Bool) (res : Nat → String × String × String) (total : Nat) :
    List String → Nat → List (String × String) → List String → List (String × String) →
    Nat → Finished
  | [], _, succ, skip, fail, processed => ⟨succ, skip, fail, total, processed, false⟩
  | f :: rest, index, succ, skip, fail, processed =>
    if cb index then ⟨succ, skip, fail, total, processed, true⟩
    else
      let t := res index
      if t.1 = "success" then
        convert_all_go cb res total rest (index + 1) (succ ++ [(f, t.2.2)]) skip fail index
      else if t.1 = "skipped" then
        convert_all_go cb res total rest (index + 1) succ (skip ++ [f]) fail index
      else if t.1 = "cancelled" then ⟨succ, skip, fail ++ [(f, t.2.1)], total, index, true⟩
      else convert_all_go cb res total rest (index + 1) succ skip (fail ++ [(f, t.2.1)]) index

/-- Function `convert_all` on the snapshot `files`. -/
def convert_all (files : List String) (cb : Nat → Bool)
    (res : Nat → String × String × String) : Finished :=
  convert_all_go cb res files.length files 1 [] [] [] 0

lemma convert_all_go_total (cb : Nat → Bool) (res : Nat → String × String × String)
    (total : Nat) :
    ∀ (l : List String) (index : Nat) (succ : List (String × String)) (skip : List String)
      (fail : List (String × String)) (processed : Nat),
      (convert_all_go cb res total l index succ skip fail processed).total = total := by
  intro l
  induction l with
  | nil => intro index succ skip fail processed; simp [convert_all_go]
  | cons f rest ih =>
    intro index succ skip fail processed
    by_cases hcb : cb index
    · simp [convert_all_go, hcb]
    · by_cases h1 : (res index).1 = "success"
      · simpa [convert_all_go, hcb, h1] using ih (index + 1) _ _ _ index
      · by_cases h2 : (res index).1 = "skipped"
        · simpa [convert_all_go, hcb, h1, h2] using ih (index + 1) _ _ _ index
        · by_cases h3 : (res index).1 = "cancelled"
          · simp [convert_all_go, hcb, h1, h2, h3]
          · simpa [convert_all_go, hcb, h1, h2, h3] using ih (index + 1) _ _ _ index

/-- Every attempted item contributes exactly one outcome, and `processed`
counts exactly the attempted items. -/
lemma convert_all_go_counts (cb : Nat → Bool) (res : Nat → String × String × String)
    (total : Nat) :
    ∀ (l : List String) (index : Nat) (succ : List (String × String)) (skip : List String)
      (fail : List (String × String)) (processed : Nat),
      succ.length + skip.length + fail.length = processed → index = processed + 1 →
      (convert_all_go cb res total l index succ skip fail processed).successes.length +
        (convert_all_go cb res total l index succ skip fail processed).skipped.length +
        (convert_all_go cb res total l index succ skip fail processed).failures.length =
        (convert_all_go cb res total l index succ skip fail processed).processed := by
  intro l
  induction l with
  | nil => intro index succ skip fail processed h hi; simpa [convert_all_go] using h
  | cons f rest ih =>
    intro index succ skip fail processed h hi
    by_cases hcb : cb index
    · simpa [convert_all_go, hcb] using h
    · by_cases h1 : (res index).1 = "success"
      · have := ih (index + 1) (succ ++ [(f, (res index).2.2)]) skip fail index
          (by simp [List.length_append]; omega) rfl
        simpa [convert_all_go, hcb, h1] using this
      · by_cases h2 : (res index).1 = "skipped"
        · have := ih (index + 1) succ (skip ++ [f]) fail index
            (by simp [List.length_append]; omega) rfl
          simpa [convert_all_go, hcb, h1, h2] using this
        · by_cases h3 : (res index).1 = "cancelled"
          · simp [convert_all_go, hcb, h1, h2, h3, List.length_append]
            omega
          · have := ih (index + 1) succ skip (fail ++ [(f, (res index).2.1)]) index
              (by simp [List.length_append]; omega) rfl
            simpa [convert_all_go, hcb, h1, h2, h3] using this

/-- If the cancellation flag is first seen `true` at the check before item
`k` (0-based within the remaining list), the loop returns immediately with
`cancelled` set, having attempted exactly the preceding items. -/
lemma convert_all_go_stop (cb : Nat → Bool) (res : Nat → String × String × String)
    (total : Nat) :
    ∀ (l : List String) (k index : Nat) (succ : List (String × String)) (skip : List String)
      (fail : List (String × String)) (processed : Nat),
      index = processed + 1 →
      (∀ m, m < k → cb (index + m) = false ∧ (res (index + m)).1 ≠ "cancelled") →
      cb (index + k) = true →
      k < l.length →
      (convert_all_go cb res total l index succ skip fail processed).cancelled = true ∧
      (convert_all_go cb res total l index succ skip fail processed).processed =
        processed + k ∧
      (convert_all_go cb res total l index succ skip fail processed).successes.length +
        (convert_all_go cb res total l index succ skip fail processed).skipped.length +
        (convert_all_go cb res total l index succ skip fail processed).failures.length =
        succ.length + skip.length + fail.length + k := by
  intro l
  induction l with
  | nil => intro k index succ skip fail processed _ _ _ hk; simp at hk
  | cons f rest ih =>
    intro k index succ skip fail processed hi hprev hcb hk
    cases k with
    | zero =>
      have hcb0 : cb index = true := by simpa using hcb
      simp [convert_all_go, hcb0]
    | succ k0 =>
      have hcb0 : cb index = false := by simpa using (hprev 0 (by omega)).1
      have hnc : (res index).1 ≠ "cancelled" := by simpa using (hprev 0 (by omega)).2
      have hprev2 : ∀ m, m < k0 →
          cb (index + 1 + m) = false ∧ (res (index + 1 + m)).1 ≠ "cancelled" := by
        intro m hm
        have := hprev (m + 1) (by omega)
        rwa [show index + (m + 1) = index + 1 + m by omega] at this
      have hcb2 : cb (index + 1 + k0) = true := by
        rwa [show index + (k0 + 1) = index + 1 + k0 by omega] at hcb
      have hk2 : k0 < rest.length := by simpa using hk
      by_cases h1 : (res index).1 = "success"
      · have := ih k0 (index + 1) (succ ++ [(f, (res index).2.2)]) skip fail index
          rfl hprev2 hcb2 hk2
        refine ⟨?_, ?_, ?_⟩ <;>
          simp [convert_all_go, hcb0, h1, this.1, this.2.1, this.2.2,
            List.length_append] <;> omega
      · by_cases h2 : (res index).1 = "skipped"
        · have := ih k0 (index + 1) succ (skip ++ [f]) fail index rfl hprev2 hcb2 hk2
          refine ⟨?_, ?_, ?_⟩ <;>
            simp [convert_all_go, hcb0, h1, h2, this.1, this.2.1, this.2.2,
              List.length_append] <;> omega
        · have := ih k0 (index + 1) succ skip (fail ++ [(f, (res index).2.1)]) index
            rfl hprev2 hcb2 hk2
          refine ⟨?_, ?_, ?_⟩ <;>
            simp [convert_all_go, hcb0, h1, h2, hnc, this.1, this.2.1, this.2.2,
              List.length_append] <;> omega

/-- If item `k` (0-based within the remaining list) is reached and classified
`cancelled`, the loop records it in the failures accumulator, sets the
cancelled flag, and stops with `processed = index + k`. -/
lemma convert_all_go_cancel_item (cb : Nat → Bool) (res : Nat → String × String × String)
    (total : Nat) :
    ∀ (l : List String) (k index : Nat) (succ : List (String × String)) (skip : List String)
      (fail : List (String × String)) (processed : Nat) (d p : String)
      (hk : k < l.length),
      (∀ m, m ≤ k → cb (index + m) = false) →
      (∀ m, m < k → (res (index + m)).1 ≠ "cancelled") →
      res (index + k) = ("cancelled", d, p) →
      (l.get ⟨k, hk⟩, d) ∈
        (convert_all_go cb res total l index succ skip fail processed).failures ∧
      (convert_all_go cb res total l index succ skip fail processed).cancelled = true ∧
      (convert_all_go cb res total l index succ skip fail processed).processed =
        index + k := by
  intro l
  induction l with
  | nil => intro k index succ skip fail processed d p hk; simp at hk
  | cons f rest ih =>
    intro k index succ skip fail processed d p hk hcb hnc hres
    cases k with
    | zero =>
      have hcb0 : cb index = false := by simpa using hcb 0 (by omega)
      have hres0 : res index = ("cancelled", d, p) := by simpa using hres
      simp [convert_all_go, hcb0, hres0]
    | succ k0 =>
      have hcb0 : cb index = false := by simpa using hcb 0 (by omega)
      have hnc0 : (res index).1 ≠ "cancelled" := by simpa using hnc 0 (by omega)
      have hcb2 : ∀ m, m ≤ k0 → cb (index + 1 + m) = false := by
        intro m hm
        have := hcb (m + 1) (by omega)
        rwa [show index + (m + 1) = index + 1 + m by omega] at this
      have hnc2 : ∀ m, m < k0 → (res (index + 1 + m)).1 ≠ "cancelled" := by
        intro m hm
        have := hnc (m + 1) (by omega)
        rwa [show index + (m + 1) = index + 1 + m by omega] at this
      have hres2 : res (index + 1 + k0) = ("cancelled", d, p) := by
        rwa [show index + (k0 + 1) = index + 1 + k0 by omega] at hres
      have hk2 : k0 < rest.length := by simpa using hk
      by_cases h1 : (res index).1 = "success"
      · obtain ⟨ih1, ih2, ih3⟩ := ih k0 (index + 1) (succ ++ [(f, (res index).2.2)]) skip
          fail index d p hk2 hcb2 hnc2 hres2
        have hunfold : convert_all_go cb res total (f :: rest) index succ skip fail
            processed = convert_all_go cb res total rest (index + 1)
              (succ ++ [(f, (res index).2.2)]) skip fail index := by
          simp [convert_all_go, hcb0, h1]
        rw [hunfold]
        exact ⟨by simpa using ih1, ih2, by rw [ih3]; omega⟩
      · by_cases h2 : (res index).1 = "skipped"
        · obtain ⟨ih1, ih2, ih3⟩ := ih k0 (index + 1) succ (skip ++ [f]) fail index d p hk2
            hcb2 hnc2 hres2
          have hunfold : convert_all_go cb res total (f :: rest) index succ skip fail
              processed = convert_all_go cb res total rest (index + 1) succ (skip ++ [f])
                fail index := by
            simp [convert_all_go, hcb0, h1, h2]
          rw [hunfold]
          exact ⟨by simpa using ih1, ih2, by rw [ih3]; omega⟩
        · obtain ⟨ih1, ih2, ih3⟩ := ih k0 (index + 1) succ skip
            (fail ++ [(f, (res index).2.1)]) index d p hk2 hcb2 hnc2 hres2
          have hunfold : convert_all_go cb res total (f :: rest) index succ skip fail
              processed = convert_all_go cb res total rest (index + 1) succ skip
                (fail ++ [(f, (res index).2.1)]) index := by
            simp [convert_all_go, hcb0, h1, h2, hnc0]
          rw [hunfold]
          exact ⟨by simpa using ih1, ih2, by rw [ih3]; omega⟩

/-- C3 counterexample: a run whose only request is classified `cancelled`
produces a terminal summary in which that request appears in the *failures*
list — the `finished` event has no separate per-request category for
cancelled items, so the request is not reported distinctly from `Failed`
outcomes; only the run-level `cancelled` flag records the cancellation. -/
theorem claim_C3_counterexample :
    (convert_all ["a"] (fun _ => false)
        (fun _ => ("cancelled", "Cancelled by user.", ""))).failures =
      [("a", "Cancelled by user.")] ∧
    (convert_all ["a"] (fun _ => false)
        (fun _ => ("cancelled", "Cancelled by user.", ""))).cancelled = true ∧
    (convert_all ["a"] (fun _ => false)
        (fun _ => ("cancelled", "Cancelled by user.", ""))).successes = [] ∧
    (convert_all ["a"] (fun _ => false)
        (fun _ => ("cancelled", "Cancelled by user.", ""))).skipped = [] := by
  decide

/-- C3 (amended): the single terminal summary event carries the successes
(with resolved output paths), the skips, the failures (each with detail
text), the total requested, the number processed and the run-level cancelled
flag; a request whose outcome is `cancelled` is carried *inside the failures
list* with its detail text, and cancellation is distinguished only by the
run-level `cancelled` flag, not by a separate per-request category.  Here:
if item `k + 1` (1-based) is reached and classified `cancelled`, the summary
lists it among the failures with its detail, sets `cancelled`, and reports
`processed = k + 1` out of `total = files.length`. -/
theorem claim_C3_summary_contents (files : List String) (cb : Nat → Bool)
    (res : Nat → String × String × String) (k : Nat) (d p : String)
    (hk : k < files.length)
    (hcb : ∀ m, 1 ≤ m → m ≤ k + 1 → cb m = false)
    (hres : ∀ m, 1 ≤ m → m ≤ k → (res m).1 ≠ "cancelled")
    (hc : res (k + 1) = ("cancelled", d, p)) :
    (files.get ⟨k, hk⟩, d) ∈ (convert_all files cb res).failures ∧
    (convert_all files cb res).cancelled = true ∧
    (convert_all files cb res).processed = k + 1 ∧
    (convert_all files cb res).total = files.length := by
  have h := convert_all_go_cancel_item cb res files.length files k 1 [] [] [] 0 d p hk
    (fun m hm => hcb (1 + m) (by omega) (by omega))
    (fun m hm => hres (1 + m) (by omega) (by omega))
    (by rwa [show (1 : Nat) + k = k + 1 by omega])
  refine ⟨h.1, h.2.1, ?_, convert_all_go_total cb res files.length files 1 [] [] [] 0⟩
  rw [convert_all, h.2.2]
  omega

/-- C3 witness: in a concrete two-item run whose second item is cancelled,
the summary lists `("b", "Cancelled by user.")` among the failures, sets the
cancelled flag and reports 2 of 2 processed. -/
theorem claim_C3_witness :
    (("b" : String), ("Cancelled by user." : String)) ∈
      (convert_all ["a", "b"] (fun _ => false)
        (fun n => if n = 2 then ("cancelled", "Cancelled by user.", "")
          else ("success", "", "out.epub"))).failures ∧
    (convert_all ["a", "b"] (fun _ => false)
      (fun n => if n = 2 then ("cancelled", "Cancelled by user.", "")
        else ("success", "", "out.epub"))).cancelled = true ∧
    (convert_all ["a", "b"] (fun _ => false)
      (fun n => if n = 2 then ("cancelled", "Cancelled by user.", "")
        else ("success", "", "out.epub"))).processed = 2 ∧
    (convert_all ["a", "b"] (fun _ => false)
      (fun n => if n = 2 then ("cancelled", "Cancelled by user.", "")
        else ("success", "", "out.epub"))).total = 2 := by
  have h := claim_C3_summary_contents ["a", "b"] (fun _ => false)
    (fun n => if n = 2 then ("cancelled", "Cancelled by user.", "")
      else ("success", "", "out.epub")) 1 "Cancelled by user." "" (by decide)
    (fun m _ _ => rfl)
    (fun m h1 h2 => by
      have hm : m = 1 := by omega
      subst hm
      decide)
    (by decide)
  exact ⟨h.1, h.2.1, h.2.2.1, h.2.2.2⟩

/-- C4: if cancellation is first observed at the check before iteration `i`
(with `i` within the snapshot), the loop stops without starting further
items: the run ends cancelled, `processed = i - 1`, the recorded outcomes
number exactly `i - 1` (one per item actually attempted, so `processed`
counts attempted items rather than the snapshot length), and the summary's
total is the snapshot length. -/
theorem claim_C4_cancel_stops_loop (files : List String) (cb : Nat → Bool)
    (res : Nat → String × String × String) (i : Nat) (h1 : 1 ≤ i)
    (hle : i ≤ files.length)
    (hprev : ∀ m, 1 ≤ m → m < i → cb m = false ∧ (res m).1 ≠ "cancelled")
    (hc : cb i = true) :
    (convert_all files cb res).cancelled = true ∧
    (convert_all files cb res).processed = i - 1 ∧
    (convert_all files cb res).successes.length +
      (convert_all files cb res).skipped.length +
      (convert_all files cb res).failures.length = i - 1 ∧
    (convert_all files cb res).total = files.length := by
  have h := convert_all_go_stop cb res files.length files (i - 1) 1 [] [] [] 0 rfl
    (fun m hm => hprev (1 + m) (by omega) (by omega))
    (by rwa [show (1 : Nat) + (i - 1) = i by omega])
    (by omega)
  refine ⟨h.1, ?_, ?_, convert_all_go_total cb res files.length files 1 [] [] [] 0⟩
  · rw [convert_all, h.2.1]
    omega
  · rw [convert_all]
    have := h.2.2
    simpa using this

/-- C4 witness: with cancellation first seen before the second of three
items, the run is cancelled after exactly one attempted item (1 of 3), with
exactly one recorded outcome. -/
theorem claim_C4_witness :
    (convert_all ["a", "b", "c"] (fun n => n == 2)
      (fun _ => ("success", "", "out.epub"))).cancelled = true ∧
    (convert_all ["a", "b", "c"] (fun n => n == 2)
      (fun _ => ("success", "", "out.epub"))).processed = 1 ∧
    (convert_all ["a", "b", "c"] (fun n => n == 2)
      (fun _ => ("success", "", "out.epub"))).successes.length +
      (convert_all ["a", "b", "c"] (fun n => n == 2)
        (fun _ => ("success", "", "out.epub"))).skipped.length +
      (convert_all ["a", "b", "c"] (fun n => n == 2)
        (fun _ => ("success", "", "out.epub"))).failures.length = 1 ∧
    (convert_all ["a", "b", "c"] (fun n => n == 2)
      (fun _ => ("success", "", "out.epub"))).total = 3 := by
  have h := claim_C4_cancel_stops_loop ["a", "b", "c"] (fun n => n == 2)
    (fun _ => ("success", "", "out.epub")) 2 (by omega) (by simp)
    (fun m h1 h2 => by
      have hm : m = 1 := by omega
      subst hm
      exact ⟨rfl, by decide⟩)
    (by decide)
  exact ⟨h.1, h.2.1, h.2.2.1, h.2.2.2⟩

/-! ## The work queue (queue_file, clear_list, on_conversion_finished)

`files_to_convert` and `file_keys` are the two queue fields of the app.
`canonical_path` (`os.path.normcase(os.path.normpath(os.path.abspath(p)))`)
is OS- and cwd-dependent, so it is embedded as an arbitrary function
`canon`; the queue logic only ever compares its outputs. -/

/-- The queue state: the ordered list of queued paths and the membership set
of their canonical forms. -/
structure AppState where
  files_to_convert : List String
  file_keys : Finset String
deriving DecidableEq

/-- Function `queue_file`: reject a path whose canonical form is already keyed,
otherwise append it and key its canonical form.  Returns the new state and
the `added` flag. -/
def queue_file (canon : String → String) (s : AppState) (path : String) : AppState × Bool :=
  let canonical := canon path
  if canonical ∈ s.file_keys then (s, false)
  else (⟨s.files_to_convert ++ [path], insert canonical s.file_keys⟩, true)

/-- Function `clear_list`: refuse while converting, when the queue is already empty,
or when the user does not confirm; otherwise empty both fields. -/
def clear_list (s : AppState) (is_converting confirmed : Bool) : AppState :=
  if is_converting then s
  else if s.files_to_convert = [] then s
  else if confirmed = false then s
  else ⟨[], ∅⟩

/-- The `processed` set built by `on_conversion_finished`: canonical paths of
success inputs and skips, plus failures' canonical paths under the
`Remove failed from queue` policy. -/
def processed_set (canon : String → String) (successes : List (String × String))
    (skipped : List String) (failures : List (String × String))
    (failure_policy : String) : Finset String :=
  let success_inputs := successes.map Prod.fst
  let processed0 := ((success_inputs ++ skipped).map canon).toFinset
  if failure_policy = FAIL_POLICY_REMOVE
  then processed0 ∪ (failures.map (fun q => canon q.1)).toFinset
  else processed0

/-- The queue update of `on_conversion_finished`: when the `processed` set is
non-empty, drop every queued path whose canonical form is in it and rebuild
`file_keys` from the remaining paths. -/
def on_conversion_finished (canon : String → String) (s : AppState)
    (successes : List (String × String)) (skipped : List String)
    (failures : List (String × String)) (failure_policy : String) : AppState :=
  let processed := processed_set canon successes skipped failures failure_policy
  if processed = ∅ then s
  else
    let new_files := s.files_to_convert.filter (fun path => canon path ∉ processed)
    ⟨new_files, (new_files.map canon).toFinset⟩

/-- The key invariant: `file_keys` is exactly the set of canonical forms of
the queued paths. -/
abbrev keys_inv (canon : String → String) (s : AppState) : Prop :=
  s.file_keys = (s.files_to_convert.map canon).toFinset

/-- No two queued paths share a canonical form. -/
abbrev files_nodup (canon : String → String) (s : AppState) : Prop :=
  (s.files_to_convert.map canon).Nodup

lemma keys_inv_queue_file (canon : String → String) (s : AppState) (path : String)
    (h : keys_inv canon s) : keys_inv canon (queue_file canon s path).1 := by
  unfold queue_file
  by_cases hc : canon path ∈ s.file_keys
  · simpa [hc] using h
  · simp only [hc, if_false]
    show insert (canon path) s.file_keys = _
    rw [h]
    simp [List.toFinset_append, Finset.insert_eq, Finset.union_comm]

lemma keys_inv_clear_list (canon : String → String) (s : AppState)
    (is_converting confirmed : Bool) (h : keys_inv canon s) :
    keys_inv canon (clear_list s is_converting confirmed) := by
  unfold clear_list
  split
  · exact h
  · split
    · exact h
    · split
      · exact h
      · simp [keys_inv]

lemma keys_inv_on_finished (canon : String → String) (s : AppState)
    (successes : List (String × String)) (skipped : List String)
    (failures : List (String × String)) (failure_policy : String)
    (h : keys_inv canon s) :
    keys_inv canon (on_conversion_finished canon s successes skipped failures
      failure_policy) := by
  unfold on_conversion_finished
  by_cases hp : processed_set canon successes skipped failures failure_policy = ∅
  · simpa [hp] using h
  · simp [hp, keys_inv]

lemma on_finished_files (canon : String → String) (s : AppState)
    (successes : List (String × String)) (skipped : List String)
    (failures : List (String × String)) (failure_policy : String) :
    (on_conversion_finished canon s successes skipped failures
      failure_policy).files_to_convert =
      if processed_set canon successes skipped failures failure_policy = ∅
      then s.files_to_convert
      else s.files_to_convert.filter
        (fun path => canon path ∉ processed_set canon successes skipped failures
          failure_policy) := by
  unfold on_conversion_finished
  split
  · rwa [if_pos]
  · rwa [if_neg]

lemma mem_processed_removed (canon : String → String) (s : AppState)
    (successes : List (String × String)) (skipped : List String)
    (failures : List (String × String)) (failure_policy : String) (x : String)
    (hx : canon x ∈ processed_set canon successes skipped failures failure_policy) :
    x ∉ (on_conversion_finished canon s successes skipped failures
      failure_policy).files_to_convert := by
  rw [on_finished_files, if_neg (Finset.ne_empty_of_mem hx)]
  intro hmem
  have h2 := (List.mem_filter.mp hmem).2
  simp only [decide_eq_true_eq] at h2
  exact h2 hx

/-- C10: the membership invariant `file_keys = canonical image of
`files_to_convert`` is preserved by every queue-mutating operation:
enqueuing a file, clearing the list, and the post-run removal of processed
items. -/
theorem claim_C10_keys_invariant (canon : String → String) (s : AppState) (path : String)
    (is_converting confirmed : Bool) (successes : List (String × String))
    (skipped : List String) (failures : List (String × String)) (failure_policy : String)
    (h : keys_inv canon s) :
    keys_inv canon (queue_file canon s path).1 ∧
    keys_inv canon (clear_list s is_converting confirmed) ∧
    keys_inv canon (on_conversion_finished canon s successes skipped failures
      failure_policy) :=
  ⟨keys_inv_queue_file canon s path h,
   keys_inv_clear_list canon s is_converting confirmed h,
   keys_inv_on_finished canon s successes skipped failures failure_policy h⟩

/-- C10 witness: concrete preservation of the invariant across an enqueue, a
clear, and a post-run removal. -/
theorem claim_C10_witness :
    keys_inv pyLower (queue_file pyLower ⟨["A"], {"a"}⟩ "B").1 ∧
    keys_inv pyLower (clear_list ⟨["A"], {"a"}⟩ false true) ∧
    keys_inv pyLower (on_conversion_finished pyLower ⟨["A"], {"a"}⟩ [("A", "A.epub")] [] []
      FAIL_POLICY_KEEP) :=
  claim_C10_keys_invariant pyLower ⟨["A"], {"a"}⟩ "B" false true [("A", "A.epub")] [] []
    FAIL_POLICY_KEEP (by decide)

/-- C6: enqueuing a second path with the same canonical form as an enqueued
one is rejected and leaves the state unchanged; a fresh path is added exactly
once; and the queue never contains two entries with the same canonical
form. -/
theorem claim_C6_enqueue_dedup (canon : String → String) (s : AppState) (p q : String)
    (hinv : keys_inv canon s) (hnd : files_nodup canon s) (hpq : canon p = canon q) :
    (queue_file canon (queue_file canon s p).1 q).2 = false ∧
    (queue_file canon (queue_file canon s p).1 q).1 = (queue_file canon s p).1 ∧
    (canon p ∉ s.file_keys →
      ((queue_file canon s p).1.files_to_convert.map canon).count (canon p) = 1) ∧
    files_nodup canon (queue_file canon (queue_file canon s p).1 q).1 := by
  by_cases hc : canon p ∈ s.file_keys
  · have h1 : queue_file canon s p = (s, false) := by simp [queue_file, hc]
    have hcq : canon q ∈ s.file_keys := hpq ▸ hc
    have h2 : queue_file canon s q = (s, false) := by simp [queue_file, hcq]
    rw [h1]
    exact ⟨by rw [h2], by rw [h2], fun hnp => absurd hc hnp, by rw [h2]; exact hnd⟩
  · have h1 : queue_file canon s p =
        (⟨s.files_to_convert ++ [p], insert (canon p) s.file_keys⟩, true) := by
      simp [queue_file, hc]
    have hnotin : canon p ∉ s.files_to_convert.map canon := by
      intro hin
      exact hc (hinv ▸ List.mem_toFinset.mpr hin)
    have hcq : canon q ∈ insert (canon p) s.file_keys := by
      rw [← hpq]
      exact Finset.mem_insert_self _ _
    have h2 : queue_file canon
        (⟨s.files_to_convert ++ [p], insert (canon p) s.file_keys⟩ : AppState) q =
        (⟨s.files_to_convert ++ [p], insert (canon p) s.file_keys⟩, false) := by
      simp [queue_file, hcq]
    rw [h1]
    refine ⟨by rw [h2], by simp [h2], fun _ => ?_, ?_⟩
    · show ((s.files_to_convert ++ [p]).map canon).count (canon p) = 1
      rw [List.map_append, List.count_append, List.count_eq_zero.mpr hnotin]
      simp
    · show ((queue_file canon _ q).1.files_to_convert.map canon).Nodup
      rw [h2]
      show ((s.files_to_convert ++ [p]).map canon).Nodup
      rw [List.map_append, List.nodup_append]
      exact ⟨hnd, by simp, by simpa using hnotin⟩

/-- C6 witness: enqueuing `"A"` into an empty queue and then `"a"` (same
canonical form under lower-casing) rejects the second enqueue, leaves the
state unchanged, and the queue holds the canonical form exactly once. -/
theorem claim_C6_witness :
    (queue_file pyLower (queue_file pyLower ⟨[], ∅⟩ "A").1 "a").2 = false ∧
    (queue_file pyLower (queue_file pyLower ⟨[], ∅⟩ "A").1 "a").1 =
      (queue_file pyLower ⟨[], ∅⟩ "A").1 ∧
    ((queue_file pyLower ⟨[], ∅⟩ "A").1.files_to_convert.map pyLower).count
      (pyLower "A") = 1 ∧
    files_nodup pyLower (queue_file pyLower (queue_file pyLower ⟨[], ∅⟩ "A").1 "a").1 := by
  have h := claim_C6_enqueue_dedup pyLower ⟨[], ∅⟩ "A" "a" (by decide) (by decide) (by decide)
  exact ⟨h.1, h.2.1, h.2.2.1 (by decide), h.2.2.2⟩

/-- C5: after a run, queued paths whose outcome was success or skip are
always removed; under `Remove failed from queue` the failed paths are removed
too; under `Keep failed queued` every queued path not among the
successes/skips remains queued; and any path whose canonical form is still
queued is rejected by a subsequent enqueue (dedup persists). -/
theorem claim_C5_failure_policy (canon : String → String) (s : AppState)
    (successes : List (String × String)) (skipped : List String)
    (failures : List (String × String)) (failure_policy : String)
    (hinv : keys_inv canon s) :
    (∀ x ∈ s.files_to_convert,
      canon x ∈ (successes.map Prod.fst ++ skipped).map canon →
      x ∉ (on_conversion_finished canon s successes skipped failures
        failure_policy).files_to_convert) ∧
    (failure_policy = FAIL_POLICY_REMOVE → ∀ x ∈ s.files_to_convert,
      canon x ∈ failures.map (fun q => canon q.1) →
      x ∉ (on_conversion_finished canon s successes skipped failures
        failure_policy).files_to_convert) ∧
    (failure_policy = FAIL_POLICY_KEEP → ∀ x ∈ s.files_to_convert,
      canon x ∉ (successes.map Prod.fst ++ skipped).map canon →
      x ∈ (on_conversion_finished canon s successes skipped failures
        failure_policy).files_to_convert) ∧
    (∀ r, canon r ∈ (on_conversion_finished canon s successes skipped failures
        failure_policy).files_to_convert.map canon →
      (queue_file canon (on_conversion_finished canon s successes skipped failures
        failure_policy) r).2 = false) := by
  refine ⟨?_, ?_, ?_, ?_⟩
  · intro x _ hx
    refine mem_processed_removed canon s successes skipped failures failure_policy x ?_
    unfold processed_set
    split
    · exact Finset.mem_union_left _ (List.mem_toFinset.mpr hx)
    · exact List.mem_toFinset.mpr hx
  · intro hpol x _ hx
    refine mem_processed_removed canon s successes skipped failures failure_policy x ?_
    unfold processed_set
    rw [if_pos hpol]
    exact Finset.mem_union_right _ (List.mem_toFinset.mpr hx)
  · intro hpol x hxs hx
    have hpol2 : failure_policy ≠ FAIL_POLICY_REMOVE := by
      rw [hpol]
      decide
    have hproc : processed_set canon successes skipped failures failure_policy =
        ((successes.map Prod.fst ++ skipped).map canon).toFinset := by
      unfold processed_set
      rw [if_neg hpol2]
    rw [on_finished_files]
    split
    · exact hxs
    · exact List.mem_filter.mpr ⟨hxs, by
        simp only [decide_eq_true_eq, hproc, List.mem_toFinset]
        exact hx⟩
  · intro r hr
    have hkeys := keys_inv_on_finished canon s successes skipped failures failure_policy hinv
    have : canon r ∈ (on_conversion_finished canon s successes skipped failures
        failure_policy).file_keys := by
      rw [hkeys]
      exact List.mem_toFinset.mpr hr
    simp [queue_file, this]

/-- C5 witness: a concrete run with one success, one skip and one failure
under `Keep failed queued`: the succeeded path leaves the queue, the failed
path stays queued, and re-enqueuing the failed path is rejected. -/
theorem claim_C5_witness :
    ("a" : String) ∉ (on_conversion_finished pyLower ⟨["a", "b", "c"], {"a", "b", "c"}⟩
      [("a", "a.epub")] ["b"] [("c", "boom")] FAIL_POLICY_KEEP).files_to_convert ∧
    ("c" : String) ∈ (on_conversion_finished pyLower ⟨["a", "b", "c"], {"a", "b", "c"}⟩
      [("a", "a.epub")] ["b"] [("c", "boom")] FAIL_POLICY_KEEP).files_to_convert ∧
    (queue_file pyLower (on_conversion_finished pyLower ⟨["a", "b", "c"], {"a", "b", "c"}⟩
      [("a", "a.epub")] ["b"] [("c", "boom")] FAIL_POLICY_KEEP) "c").2 = false := by
  have h := claim_C5_failure_policy pyLower ⟨["a", "b", "c"], {"a", "b", "c"}⟩
    [("a", "a.epub")] ["b"] [("c", "boom")] FAIL_POLICY_KEEP (by decide)
  exact ⟨h.1 "a" (by decide) (by decide),
    h.2.2.1 rfl "c" (by decide) (by decide),
    h.2.2.2 "c" (by
      have := h.2.2.1 rfl "c" (by decide) (by decide)
      exact List.mem_map_of_mem pyLower this)⟩

/-! ## Timeout validation and run start (get_timeout_seconds, start_conversion) -/

/-- Python `int(raw)` on an already-stripped string: optional sign followed
by one or more decimal digits. -/
def parsePyInt (s : String) : Option Int :=
  match s.data with
  | [] => none
  | c :: rest =>
    if c = '-' then
      if rest ≠ [] ∧ rest.all Char.isDigit then some (-(digitsVal rest : Int)) else none
    else if c = '+' then
      if rest ≠ [] ∧ rest.all Char.isDigit then some ((digitsVal rest : Int)) else none
    else if (c :: rest).all Char.isDigit then some ((digitsVal (c :: rest) : Int)) else none

/-- Function `get_timeout_seconds`: strip the spinbox text, parse it as an integer
(`ValueError` becomes the whole-number error), then enforce the inclusive
30–7200 range. -/
def get_timeout_seconds (timeout_seconds_var : String) : Except String Int :=
  let raw_value := pyStrip timeout_seconds_var
  match parsePyInt raw_value with
  | none => Except.error "Timeout must be a whole number of seconds."
  | some timeout =>
    if timeout < 30 then Except.error "Timeout must be at least 30 seconds."
    else if timeout > 7200 then Except.error "Timeout must be 7200 seconds or less."
    else Except.ok timeout

/-- State read by `start_conversion`: the busy flag, the queue, the converter
lookup result (`shutil.which`), the raw timeout text, the output-directory
override text and whether that directory exists, and the existing-output
policy. -/
structure StartEnv where
  is_converting : Bool
  files_to_convert : List String
  converter_cmd : Option String
  timeout_raw : String
  output_dir_raw : String
  output_dir_is_dir : Bool
  policy : String

/-- Function `start_conversion`: run all preconditions in source order; `none` means
no batch run starts (and hence no worker thread and no conversion subprocess
is spawned); `some` carries the snapshot, policy and validated timeout the
worker thread is started with. -/
def start_conversion (e : StartEnv) : Option (List String × String × Int) :=
  if e.is_converting then none
  else if e.files_to_convert = [] then none
  else match e.converter_cmd with
  | none => none
  | some _ =>
    match get_timeout_seconds e.timeout_raw with
    | Except.error _ => none
    | Except.ok timeout_seconds =>
      let output_dir := pyStrip e.output_dir_raw
      if output_dir ≠ "" ∧ e.output_dir_is_dir = false then none
      else some (e.files_to_convert, e.policy, timeout_seconds)

lemma start_conversion_none_of_error (e : StartEnv) (msg : String)
    (h : get_timeout_seconds e.timeout_raw = Except.error msg) :
    start_conversion e = none := by
  unfold start_conversion
  split
  · rfl
  · split
    · rfl
    · cases e.converter_cmd with
      | none => rfl
      | some cmd => rw [h]

/-- C9: a configured timeout that is not a whole number, below 30 or above
7200 is rejected before a batch run starts — `start_conversion` returns
`none`, so no worker thread and no conversion subprocess is spawned — while
whole-number values in the inclusive range 30–7200 are accepted by
`get_timeout_seconds`. -/
theorem claim_C9_timeout_validation (e : StartEnv) :
    (parsePyInt (pyStrip e.timeout_raw) = none → start_conversion e = none) ∧
    (∀ t : Int, parsePyInt (pyStrip e.timeout_raw) = some t → (t < 30 ∨ 7200 < t) →
      start_conversion e = none) ∧
    (∀ t : Int, parsePyInt (pyStrip e.timeout_raw) = some t → 30 ≤ t → t ≤ 7200 →
      get_timeout_seconds e.timeout_raw = Except.ok t) := by
  refine ⟨?_, ?_, ?_⟩
  · intro hp
    refine start_conversion_none_of_error e "Timeout must be a whole number of seconds." ?_
    simp [get_timeout_seconds, hp]
  · intro t hp hrange
    rcases hrange with hlo | hhi
    · refine start_conversion_none_of_error e "Timeout must be at least 30 seconds." ?_
      simp [get_timeout_seconds, hp, hlo]
    · refine start_conversion_none_of_error e "Timeout must be 7200 seconds or less." ?_
      simp [get_timeout_seconds, hp, hhi, show ¬ t < 30 by omega]
  · intro t hp h30 h7200
    simp [get_timeout_seconds, hp, show ¬ t < 30 by omega, show ¬ t > 7200 by omega]

/-- C9 witness: `"abc"` (not a whole number) and `"10"` (below 30) both
prevent the run from starting, while `"600"` is accepted as 600 seconds. -/
theorem claim_C9_witness :
    start_conversion ⟨false, ["a.mobi"], some "ebook-convert", "abc", "", true,
      POLICY_SKIP⟩ = none ∧
    start_conversion ⟨false, ["a.mobi"], some "ebook-convert", "10", "", true,
      POLICY_SKIP⟩ = none ∧
    get_timeout_seconds "600" = Except.ok 600 :=
  ⟨(claim_C9_timeout_validation ⟨false, ["a.mobi"], some "ebook-convert", "abc", "", true,
      POLICY_SKIP⟩).1 (by decide),
   (claim_C9_timeout_validation ⟨false, ["a.mobi"], some "ebook-convert", "10", "", true,
      POLICY_SKIP⟩).2.1 10 (by decide) (Or.inl (by decide)),
   (claim_C9_timeout_validation ⟨false, ["a.mobi"], some "ebook-convert", "600", "", true,
      POLICY_SKIP⟩).2.2 600 (by decide) (by decide) (by decide)⟩

end MOBIHunter
